import Mathlib

/-!
Shallow embedding of `src/sync.py` (an Anthropic usage/cost → Google Sheets
sync script) and proofs about its normalization, configuration, fetch and
append logic.

Modelling conventions:
* JSON values (the result of Python's `json.loads` and the payloads handed to
  the normalizers) are `JValue`.  Numbers are modelled as integers (the token
  counts the claims reason about are integers; no claim performs arithmetic
  on fractional amounts).
* Python dicts are association lists preserving insertion order, as CPython
  dicts do; `dict.get` is first-match lookup with a default.
* Operations that can raise in Python (attribute errors on non-dicts,
  `TypeError` from `+` on mismatched types, iterating a non-iterable) are
  modelled with `Except String`; an `Except.error` is a crashed run.
* The current UTC time is passed explicitly as seconds since the Unix epoch
  (`dt.datetime.utcnow()` made explicit state).
* Side-effecting functions (`append_rows`, the startup configuration code)
  return explicit traces of the observable operations they perform.
-/

/-- A JSON value, the result type of Python's `json.loads`. -/
inductive JValue where
  | null : JValue
  | bool : Bool → JValue
  | int : Int → JValue
  | str : String → JValue
  | arr : List JValue → JValue
  | obj : List (String × JValue) → JValue

/-- A normalized spreadsheet row: an ordered list of cell values. -/
abbrev Row := List JValue

/-- Python truthiness (`bool(v)`) for JSON-decoded values. -/
def truthy : JValue → Bool
  | JValue.null => false
  | JValue.bool b => b
  | JValue.int n => n ≠ 0
  | JValue.str s => s ≠ ""
  | JValue.arr xs => !xs.isEmpty
  | JValue.obj fs => !fs.isEmpty

/-- Python's `a or b`: `a` if truthy, else `b`. -/
def pyOr (a b : JValue) : JValue :=
  if truthy a then a else b

/-- `d.get(k, default)` on a dict given as an association list. -/
def dictGetD (fs : List (String × JValue)) (k : String) (d : JValue) : JValue :=
  match fs.find? (fun kv => kv.1 == k) with
  | some kv => kv.2
  | none => d

/-- `k in d` on a dict given as an association list. -/
def hasKey (fs : List (String × JValue)) (k : String) : Bool :=
  (fs.find? (fun kv => kv.1 == k)).isSome

/-- Python iteration over a JSON-decoded value: lists yield their elements,
dicts yield their keys, strings yield their characters; anything else raises
`TypeError`. -/
def pyIter : JValue → Except String (List JValue)
  | JValue.arr xs => Except.ok xs
  | JValue.obj fs => Except.ok (fs.map (fun kv => JValue.str kv.1))
  | JValue.str s => Except.ok (s.data.map (fun c => JValue.str (String.mk [c])))
  | _ => Except.error "TypeError: object is not iterable"

/-- Python `a + b` on JSON-decoded values: integer addition and string
concatenation succeed, any other combination raises `TypeError`. -/
def pyAdd : JValue → JValue → Except String JValue
  | JValue.int a, JValue.int b => Except.ok (JValue.int (a + b))
  | JValue.str a, JValue.str b => Except.ok (JValue.str (a ++ b))
  | _, _ => Except.error "TypeError: unsupported operand types"

/-- Hex digit for escape sequences. -/
def hexDigit (n : Nat) : Char :=
  if n < 10 then Char.ofNat (48 + n) else Char.ofNat (87 + n)

/-- Four-digit hexadecimal rendering, for `\uXXXX` escapes. -/
def hex4 (n : Nat) : String :=
  String.mk [hexDigit (n / 4096 % 16), hexDigit (n / 256 % 16),
             hexDigit (n / 16 % 16), hexDigit (n % 16)]

/-- JSON string escaping of one character, as `json.dumps` performs it for
the characters that require escaping. -/
def escChar (c : Char) : String :=
  if c = '"' then "\\\""
  else if c = '\\' then "\\\\"
  else if c = '\n' then "\\n"
  else if c = '\t' then "\\t"
  else if c = '\r' then "\\r"
  else if c.toNat < 32 then "\\u" ++ hex4 c.toNat
  else String.mk [c]

/-- JSON string literal rendering. -/
def jsonQuote (s : String) : String :=
  "\"" ++ String.join (s.data.map escChar) ++ "\""

mutual

/-- `json.dumps` with its default separators, modelling the serialization of
a result record into the `raw_json` column. -/
def dumps : JValue → String
  | JValue.null => "null"
  | JValue.bool b => if b then "true" else "false"
  | JValue.int n => toString n
  | JValue.str s => jsonQuote s
  | JValue.arr xs => "[" ++ dumpsList xs ++ "]"
  | JValue.obj fs => "\x7b" ++ dumpsFields fs ++ "\x7d"

/-- Comma-separated serialization of array elements. -/
def dumpsList : List JValue → String
  | [] => ""
  | [x] => dumps x
  | x :: y :: xs => dumps x ++ ", " ++ dumpsList (y :: xs)

/-- Comma-separated serialization of object fields. -/
def dumpsFields : List (String × JValue) → String
  | [] => ""
  | [kv] => jsonQuote kv.1 ++ ": " ++ dumps kv.2
  | kv :: kw :: fs => jsonQuote kv.1 ++ ": " ++ dumps kv.2 ++ ", " ++ dumpsFields (kw :: fs)

end

/-- Python single-quoted string `repr`; escaping inside the quotes is
simplified (no claim exercises it). -/
def pyQuote (s : String) : String :=
  String.mk ('\'' :: s.data) ++ String.mk ['\'']

mutual

/-- Python `repr(v)`, which `str` delegates to inside containers. -/
def pyRepr : JValue → String
  | JValue.null => "None"
  | JValue.bool b => if b then "True" else "False"
  | JValue.int n => toString n
  | JValue.str s => pyQuote s
  | JValue.arr xs => "[" ++ pyReprList xs ++ "]"
  | JValue.obj fs => "\x7b" ++ pyReprFields fs ++ "\x7d"

/-- Comma-separated `repr` of list elements. -/
def pyReprList : List JValue → String
  | [] => ""
  | [x] => pyRepr x
  | x :: y :: xs => pyRepr x ++ ", " ++ pyReprList (y :: xs)

/-- Comma-separated `repr` of dict items. -/
def pyReprFields : List (String × JValue) → String
  | [] => ""
  | [kv] => pyQuote kv.1 ++ ": " ++ pyRepr kv.2
  | kv :: kw :: fs =>
      pyQuote kv.1 ++ ": " ++ pyRepr kv.2 ++ ", " ++ pyReprFields (kw :: fs)

end

/-- Python `str(v)` for JSON-decoded values, as used by the f-string that
builds the cost period string.  `str` of a container is its `repr`. -/
def pyStr : JValue → String
  | JValue.null => "None"
  | JValue.bool b => if b then "True" else "False"
  | JValue.int n => toString n
  | JValue.str s => s
  | JValue.arr xs => "[" ++ pyReprList xs ++ "]"
  | JValue.obj fs => "\x7b" ++ pyReprFields fs ++ "\x7d"

/-! ## Time model

`dt.datetime.utcnow()` is modelled as an explicit parameter: the current UTC
time in whole seconds since the Unix epoch (the script drops microseconds
before formatting, so seconds resolution is exact for its outputs). -/

/-- Zero-padded two-digit decimal rendering. -/
def pad2 (n : Nat) : String :=
  if n < 10 then "0" ++ toString n else toString n

/-- Zero-padded four-digit decimal rendering. -/
def pad4 (n : Nat) : String :=
  if n < 10 then "000" ++ toString n
  else if n < 100 then "00" ++ toString n
  else if n < 1000 then "0" ++ toString n
  else toString n

/-- Civil (proleptic Gregorian) date from a count of days since 1970-01-01,
returned as (year, month, day). -/
def civilFromDays (z : Nat) : Nat × Nat × Nat :=
  let z' := z + 719468
  let era := z' / 146097
  let doe := z' % 146097
  let yoe := (doe - doe / 1460 + doe / 36524 - doe / 146096) / 365
  let y := yoe + era * 400
  let doy := doe - (365 * yoe + yoe / 4 - yoe / 100)
  let mp := (5 * doy + 2) / 153
  let d := doy - (153 * mp + 2) / 5 + 1
  let m := if mp < 10 then mp + 3 else mp - 9
  (if m ≤ 2 then y + 1 else y, m, d)

/-- `strftime("%Y-%m-%d")` of a UTC instant given in epoch seconds: the
calendar date alone, with no time-of-day component. -/
def strftimeDate (t : Nat) : String :=
  let c := civilFromDays (t / 86400)
  pad4 c.1 ++ "-" ++ pad2 c.2.1 ++ "-" ++ pad2 c.2.2

/-- `iso_now()`: `dt.datetime.utcnow().replace(microsecond=0).isoformat() + "Z"`,
an ISO-8601 timestamp at seconds precision with a trailing Z. -/
def iso_now (t : Nat) : String :=
  strftimeDate t ++ "T" ++ pad2 (t % 86400 / 3600) ++ ":" ++
    pad2 (t % 3600 / 60) ++ ":" ++ pad2 (t % 60) ++ "Z"

/-- The dict returned by `get_date_range`. -/
structure DateRange where
  starting_at : String
  ending_at : String
deriving Repr, DecidableEq

/-- `get_date_range()` with the parsed `LOOKBACK_HOURS` value and the current
UTC time (epoch seconds) made explicit: `ending_at = utcnow()`,
`starting_at = ending_at - timedelta(hours=lookback_hours)`, both rendered
with `strftime("%Y-%m-%d")`. -/
def get_date_range (lookback_hours : Nat) (t : Nat) : DateRange :=
  let ending_at := t
  let starting_at := ending_at - lookback_hours * 3600
  { starting_at := strftimeDate starting_at, ending_at := strftimeDate ending_at }

/-! ## Row normalizers -/

/-- The row `normalize_usage` appends for one result record `item`:
sums `uncached_input_tokens` and `cache_read_input_tokens` (each defaulting
to 0), falls back to `""` for falsy `workspace_id`/`model`, defaults
`output_tokens` to `""`, leaves `cost_usd` empty, and ends with
`json.dumps(item)`.  Calling `.get` on a non-dict raises; `+` on
incompatible operand types raises. -/
def usageRow (ts : String) (item : JValue) : Except String Row :=
  match item with
  | JValue.obj fs =>
    match pyAdd (dictGetD fs "uncached_input_tokens" (JValue.int 0))
                (dictGetD fs "cache_read_input_tokens" (JValue.int 0)) with
    | Except.ok total =>
        Except.ok [JValue.str ts,
          pyOr (dictGetD fs "workspace_id" JValue.null) (JValue.str ""),
          pyOr (dictGetD fs "model" JValue.null) (JValue.str ""),
          total,
          dictGetD fs "output_tokens" (JValue.str ""),
          JValue.str "",
          JValue.str (dumps item)]
    | Except.error e => Except.error e
  | _ => Except.error "AttributeError: object has no attribute get"

/-- The inner `for item in results` loop of `normalize_usage`. -/
def normUsageResults (ts : String) : List JValue → Except String (List Row)
  | [] => Except.ok []
  | item :: rest =>
    match usageRow ts item, normUsageResults ts rest with
    | Except.ok r, Except.ok rs => Except.ok (r :: rs)
    | Except.error e, _ => Except.error e
    | _, Except.error e => Except.error e

/-- One iteration of the outer loop of `normalize_usage`: fetch the bucket's
`results` (defaulting to `[]`), iterate it, and normalize each record. -/
def usageBucketRows (ts : String) (di : JValue) : Except String (List Row) :=
  match di with
  | JValue.obj fs =>
    match pyIter (dictGetD fs "results" (JValue.arr [])) with
    | Except.ok results => normUsageResults ts results
    | Except.error e => Except.error e
  | _ => Except.error "AttributeError: object has no attribute get"

/-- The outer `for data_item in data_items` loop of `normalize_usage`. -/
def normUsageBuckets (ts : String) : List JValue → Except String (List Row)
  | [] => Except.ok []
  | di :: rest =>
    match usageBucketRows ts di, normUsageBuckets ts rest with
    | Except.ok rs1, Except.ok rs2 => Except.ok (rs1 ++ rs2)
    | Except.error e, _ => Except.error e
    | _, Except.error e => Except.error e

/-- `normalize_usage(payload)`: computes `ts = iso_now()` once, reads
`payload.get("data", [])`, and flattens every bucket's results into rows. -/
def normalize_usage (t : Nat) (payload : JValue) : Except String (List Row) :=
  let ts := iso_now t
  match payload with
  | JValue.obj fs =>
    match pyIter (dictGetD fs "data" (JValue.arr [])) with
    | Except.ok dataItems => normUsageBuckets ts dataItems
    | Except.error e => Except.error e
  | _ => Except.error "AttributeError: object has no attribute get"

/-- The period f-string of `normalize_cost`:
`f"{data_item.get('starting_at', '')} to {data_item.get('ending_at', '')}"`. -/
def periodOf (fs : List (String × JValue)) : String :=
  pyStr (dictGetD fs "starting_at" (JValue.str "")) ++ " to " ++
    pyStr (dictGetD fs "ending_at" (JValue.str ""))

/-- The row `normalize_cost` appends for one result record `item` of a bucket
with period string `period`. -/
def costRow (ts period : String) (item : JValue) : Except String Row :=
  match item with
  | JValue.obj fs =>
      Except.ok [JValue.str ts,
        pyOr (dictGetD fs "workspace_id" JValue.null) (JValue.str ""),
        pyOr (dictGetD fs "model" JValue.null) (JValue.str ""),
        JValue.str period,
        dictGetD fs "amount" (JValue.str ""),
        pyOr (dictGetD fs "description" JValue.null)
          (pyOr (dictGetD fs "cost_type" JValue.null) (JValue.str "")),
        JValue.str (dumps item)]
  | _ => Except.error "AttributeError: object has no attribute get"

/-- The inner `for item in results` loop of `normalize_cost`. -/
def normCostResults (ts period : String) : List JValue → Except String (List Row)
  | [] => Except.ok []
  | item :: rest =>
    match costRow ts period item, normCostResults ts period rest with
    | Except.ok r, Except.ok rs => Except.ok (r :: rs)
    | Except.error e, _ => Except.error e
    | _, Except.error e => Except.error e

/-- One iteration of the outer loop of `normalize_cost`: compute the bucket's
period string, fetch its `results` (defaulting to `[]`), and normalize each
record. -/
def costBucketRows (ts : String) (di : JValue) : Except String (List Row) :=
  match di with
  | JValue.obj fs =>
    match pyIter (dictGetD fs "results" (JValue.arr [])) with
    | Except.ok results => normCostResults ts (periodOf fs) results
    | Except.error e => Except.error e
  | _ => Except.error "AttributeError: object has no attribute get"

/-- The outer `for data_item in data_items` loop of `normalize_cost`. -/
def normCostBuckets (ts : String) : List JValue → Except String (List Row)
  | [] => Except.ok []
  | di :: rest =>
    match costBucketRows ts di, normCostBuckets ts rest with
    | Except.ok rs1, Except.ok rs2 => Except.ok (rs1 ++ rs2)
    | Except.error e, _ => Except.error e
    | _, Except.error e => Except.error e

/-- `normalize_cost(payload)`: computes `ts = iso_now()` once, reads
`payload.get("data", [])`, and flattens every bucket's results into rows,
stamping each row with its bucket's period string. -/
def normalize_cost (t : Nat) (payload : JValue) : Except String (List Row) :=
  let ts := iso_now t
  match payload with
  | JValue.obj fs =>
    match pyIter (dictGetD fs "data" (JValue.arr [])) with
    | Except.ok dataItems => normCostBuckets ts dataItems
    | Except.error e => Except.error e
  | _ => Except.error "AttributeError: object has no attribute get"

/-- The buckets a payload yields when normalization succeeds: the elements of
`payload.get("data", [])`. -/
def bucketsOf (payload : JValue) : List JValue :=
  match payload with
  | JValue.obj fs =>
    match pyIter (dictGetD fs "data" (JValue.arr [])) with
    | Except.ok dataItems => dataItems
    | Except.error _ => []
  | _ => []

/-- The result records of one bucket: the elements of
`data_item.get("results", [])`. -/
def resultsOfBucket (di : JValue) : List JValue :=
  match di with
  | JValue.obj fs =>
    match pyIter (dictGetD fs "results" (JValue.arr [])) with
    | Except.ok results => results
    | Except.error _ => []
  | _ => []

/-- `item` is one of the result records of `payload`. -/
def IsResultOf (payload item : JValue) : Prop :=
  ∃ di ∈ bucketsOf payload, item ∈ resultsOfBucket di

/-! ## Sheet writer (`append_rows`)

`append_rows` only prints and (outside dry-run) issues one batched
`ws.append_rows` call; it is modelled as the list of observable operations it
performs, in order. -/

/-- One observable operation of `append_rows`. -/
inductive SheetOp where
  | logNoRows : String → SheetOp
  | logDryRunHeader : Nat → String → SheetOp
  | logSampleRow : Nat → Row → SheetOp
  | logMoreRows : Nat → SheetOp
  | writeRows : List Row → SheetOp
  | logAppended : Nat → String → SheetOp

/-- `append_rows(ws, rows, sheet_name)` with the module-level `DRY_RUN` flag
made explicit: empty input logs and returns; in dry-run it logs a header, the
first 3 rows (1-based indices) and, when more than 3 rows exist, the count of
the remainder; otherwise it performs the single batched write then logs. -/
def append_rows (dryRun : Bool) (rows : List Row) (sheetName : String) : List SheetOp :=
  if rows.isEmpty then [SheetOp.logNoRows sheetName]
  else if dryRun then
    SheetOp.logDryRunHeader rows.length sheetName ::
      ((rows.take 3).enum.map (fun p => SheetOp.logSampleRow (p.1 + 1) p.2) ++
        (if 3 < rows.length then [SheetOp.logMoreRows (rows.length - 3)] else []))
  else [SheetOp.writeRows rows, SheetOp.logAppended rows.length sheetName]

/-- The write operations among a trace of sheet operations. -/
def writtenRows (ops : List SheetOp) : List (List Row) :=
  ops.filterMap (fun o => match o with
    | SheetOp.writeRows rs => some rs
    | _ => none)

/-- The rows logged as samples, in order. -/
def sampledRows (ops : List SheetOp) : List Row :=
  ops.filterMap (fun o => match o with
    | SheetOp.logSampleRow _ r => some r
    | _ => none)

/-- The remainder counts logged by "... and N more rows" lines. -/
def remainderCounts (ops : List SheetOp) : List Nat :=
  ops.filterMap (fun o => match o with
    | SheetOp.logMoreRows n => some n
    | _ => none)

/-! ## Report fetcher (`fetch_json`) -/

/-- The outcome of the single `requests.get` call inside `fetch_json`: either
a transport-level exception, or a response with a status code, a body text,
and the body's JSON parse (`none` when `resp.json()` would raise). -/
inductive HttpResult where
  | transportError : String → HttpResult
  | response : Nat → String → Option JValue → HttpResult

/-- Python's `text[:500]`: the first 500 characters (code points) of the
response body, used in the error logs. -/
def snippet500 (s : String) : String :=
  String.mk (s.data.take 500)

/-- `fetch_json`: returns the parsed JSON on a 200 response; on a transport
error, a non-200 status, or a parse failure it logs and calls `sys.exit(1)`,
modelled as `Except.error` carrying the printed lines. -/
def fetch_json (res : HttpResult) : Except (List String) JValue :=
  match res with
  | HttpResult.transportError msg =>
      Except.error ["ERROR: Failed to fetch: " ++ msg]
  | HttpResult.response statusCode text parsed =>
      if statusCode ≠ 200 then
        Except.error ["ERROR: API returned status " ++ toString statusCode,
                      "Response: " ++ snippet500 text]
      else
        match parsed with
        | some v => Except.ok v
        | none => Except.error ["ERROR: Failed to parse JSON response",
                                "Response text: " ++ snippet500 text]

/-! ## Configuration and startup sequencing

The module-level configuration code (lines 11-54 of `sync.py`) runs before
`main()`, which opens the spreadsheet and fetches the two reports.  The run
is modelled as the ordered trace of its observable events; configuration
failure (`sys.exit(1)`, or an uncaught exception on a non-dict credentials
value) stops the trace before any network event. -/

/-- The process environment values the script reads.  `service_account_json`
is the result of `json.loads` on the raw `GOOGLE_SERVICE_ACCOUNT_JSON` blob:
`none` covers both an absent/empty variable and a JSON parse failure, either
of which is fatal before the field checks. -/
structure Env where
  google_sheet_id : String
  anthropic_admin_key : String
  anthropic_base_url : Option String
  usage_endpoint : Option String
  cost_endpoint : Option String
  service_account_json : Option JValue

/-- One observable event of a run. -/
inductive RunEvent where
  | logMsg : String → RunEvent
  | fatalExit : String → RunEvent
  | networkCall : String → RunEvent

/-- The service-account validation of lines 43-54: a parse failure is fatal;
on a dict, a missing `client_email` then a missing `private_key` are fatal;
a non-dict JSON value raises an uncaught `TypeError` (at the membership test
or the subscript), which also terminates the process with a nonzero exit.
Returns the emitted events and whether configuration may continue. -/
def checkServiceAccount (parsed : Option JValue) : List RunEvent × Bool :=
  match parsed with
  | none => ([RunEvent.fatalExit "GOOGLE_SERVICE_ACCOUNT_JSON is not valid JSON"], false)
  | some (JValue.obj fs) =>
      if !hasKey fs "client_email" then
        ([RunEvent.fatalExit "GOOGLE_SERVICE_ACCOUNT_JSON missing client_email field"], false)
      else if !hasKey fs "private_key" then
        ([RunEvent.fatalExit "GOOGLE_SERVICE_ACCOUNT_JSON missing private_key field"], false)
      else
        ([RunEvent.logMsg "Using service account"], true)
  | some _ => ([RunEvent.fatalExit "TypeError"], false)

/-- The module-level configuration sequence, in source order: required
variables (`GOOGLE_SHEET_ID`, `ANTHROPIC_ADMIN_KEY`), the `https://` check on
the base URL, the `/v1/` checks on both endpoints, then the service-account
JSON validation.  Each failure is `sys.exit(1)` and ends the trace. -/
def configPhase (env : Env) : List RunEvent × Bool :=
  if (env.google_sheet_id.trim == "") then
    ([RunEvent.fatalExit "GOOGLE_SHEET_ID is missing or empty"], false)
  else if (env.anthropic_admin_key.trim == "") then
    ([RunEvent.fatalExit "ANTHROPIC_ADMIN_KEY is missing or empty"], false)
  else if !((env.anthropic_base_url.getD "https://api.anthropic.com").trim.startsWith "https://") then
    ([RunEvent.fatalExit "ANTHROPIC_BASE_URL must start with https://"], false)
  else if !((env.usage_endpoint.getD "/v1/organizations/usage_report/messages").trim.startsWith "/v1/") then
    ([RunEvent.fatalExit "USAGE_ENDPOINT must start with /v1/"], false)
  else if !((env.cost_endpoint.getD "/v1/organizations/cost_report").trim.startsWith "/v1/") then
    ([RunEvent.fatalExit "COST_ENDPOINT must start with /v1/"], false)
  else
    checkServiceAccount env.service_account_json

/-- The network interactions `main()` performs once configuration has
succeeded, in order: spreadsheet access via `open_sheet`, then the usage and
cost report fetches. -/
def mainNetworkEvents : List RunEvent :=
  [RunEvent.networkCall "open_sheet",
   RunEvent.networkCall "usage report",
   RunEvent.networkCall "cost report"]

/-- The startup trace of the whole program: configuration first; only when
every configuration check passes does `main()` reach its network calls. -/
def runProgram (env : Env) : List RunEvent :=
  let c := configPhase env
  c.1 ++ (if c.2 then mainNetworkEvents else [])

/-! ## Helper lemmas about the normalizers -/

/-- A successful `usageRow` forces the record to be a dict and determines the
row's exact shape. -/
theorem usageRow_ok (ts : String) (item : JValue) (r : Row)
    (h : usageRow ts item = Except.ok r) :
    ∃ fs total, item = JValue.obj fs ∧
      pyAdd (dictGetD fs "uncached_input_tokens" (JValue.int 0))
            (dictGetD fs "cache_read_input_tokens" (JValue.int 0)) = Except.ok total ∧
      r = [JValue.str ts,
           pyOr (dictGetD fs "workspace_id" JValue.null) (JValue.str ""),
           pyOr (dictGetD fs "model" JValue.null) (JValue.str ""),
           total,
           dictGetD fs "output_tokens" (JValue.str ""),
           JValue.str "",
           JValue.str (dumps item)] := by
  cases item with
  | obj fs =>
      cases hadd : pyAdd (dictGetD fs "uncached_input_tokens" (JValue.int 0))
          (dictGetD fs "cache_read_input_tokens" (JValue.int 0)) with
      | ok total =>
          simp only [usageRow, hadd, Except.ok.injEq] at h
          exact ⟨fs, total, rfl, hadd, h.symm⟩
      | error e =>
          simp only [usageRow, hadd] at h
          exact absurd h (by simp)
  | null => exact absurd h (by simp [usageRow])
  | bool b => exact absurd h (by simp [usageRow])
  | int n => exact absurd h (by simp [usageRow])
  | str s => exact absurd h (by simp [usageRow])
  | arr xs => exact absurd h (by simp [usageRow])

/-- A successful `costRow` forces the record to be a dict and determines the
row's exact shape. -/
theorem costRow_ok (ts period : String) (item : JValue) (r : Row)
    (h : costRow ts period item = Except.ok r) :
    ∃ fs, item = JValue.obj fs ∧
      r = [JValue.str ts,
           pyOr (dictGetD fs "workspace_id" JValue.null) (JValue.str ""),
           pyOr (dictGetD fs "model" JValue.null) (JValue.str ""),
           JValue.str period,
           dictGetD fs "amount" (JValue.str ""),
           pyOr (dictGetD fs "description" JValue.null)
             (pyOr (dictGetD fs "cost_type" JValue.null) (JValue.str "")),
           JValue.str (dumps item)] := by
  cases item with
  | obj fs =>
      simp only [costRow, Except.ok.injEq] at h
      exact ⟨fs, rfl, h.symm⟩
  | null => exact absurd h (by simp [costRow])
  | bool b => exact absurd h (by simp [costRow])
  | int n => exact absurd h (by simp [costRow])
  | str s => exact absurd h (by simp [costRow])
  | arr xs => exact absurd h (by simp [costRow])

/-- Rows of the inner usage loop all come from records of the iterated list. -/
theorem normUsageResults_sound (ts : String) :
    ∀ (items : List JValue) (rows : List Row),
      normUsageResults ts items = Except.ok rows →
      ∀ r ∈ rows, ∃ it ∈ items, usageRow ts it = Except.ok r := by
  intro items
  induction items with
  | nil =>
      intro rows h r hr
      simp only [normUsageResults, Except.ok.injEq] at h
      subst h
      simp at hr
  | cons item rest ih =>
      intro rows h r hr
      cases hu : usageRow ts item with
      | error e => simp [normUsageResults, hu] at h
      | ok r0 =>
          cases hrest : normUsageResults ts rest with
          | error e => simp [normUsageResults, hu, hrest] at h
          | ok rs =>
              simp only [normUsageResults, hu, hrest, Except.ok.injEq] at h
              subst h
              rcases List.mem_cons.mp hr with hr0 | hrs
              · exact ⟨item, List.mem_cons_self _ _, hr0 ▸ hu⟩
              · rcases ih rs hrest r hrs with ⟨it, hit, hrow⟩
                exact ⟨it, List.mem_cons_of_mem _ hit, hrow⟩

/-- Rows of one usage bucket all come from that bucket's result records. -/
theorem usageBucketRows_sound (ts : String) (di : JValue) (rows : List Row)
    (h : usageBucketRows ts di = Except.ok rows) :
    ∀ r ∈ rows, ∃ it ∈ resultsOfBucket di, usageRow ts it = Except.ok r := by
  intro r hr
  cases di with
  | obj fs =>
      cases hit : pyIter (dictGetD fs "results" (JValue.arr [])) with
      | error e => simp [usageBucketRows, hit] at h
      | ok results =>
          simp only [usageBucketRows, hit] at h
          have := normUsageResults_sound ts results rows h r hr
          simpa [resultsOfBucket, hit] using this
  | null => simp [usageBucketRows] at h
  | bool b => simp [usageBucketRows] at h
  | int n => simp [usageBucketRows] at h
  | str s => simp [usageBucketRows] at h
  | arr xs => simp [usageBucketRows] at h

/-- Rows of the outer usage loop all come from some bucket's result records. -/
theorem normUsageBuckets_sound (ts : String) :
    ∀ (dis : List JValue) (rows : List Row),
      normUsageBuckets ts dis = Except.ok rows →
      ∀ r ∈ rows, ∃ di ∈ dis, ∃ it ∈ resultsOfBucket di, usageRow ts it = Except.ok r := by
  intro dis
  induction dis with
  | nil =>
      intro rows h r hr
      simp only [normUsageBuckets, Except.ok.injEq] at h
      subst h
      simp at hr
  | cons di rest ih =>
      intro rows h r hr
      cases hb : usageBucketRows ts di with
      | error e => simp [normUsageBuckets, hb] at h
      | ok rs1 =>
          cases hrest : normUsageBuckets ts rest with
          | error e => simp [normUsageBuckets, hb, hrest] at h
          | ok rs2 =>
              simp only [normUsageBuckets, hb, hrest, Except.ok.injEq] at h
              subst h
              rcases List.mem_append.mp hr with h1 | h2
              · rcases usageBucketRows_sound ts di rs1 hb r h1 with ⟨it, hit, hrow⟩
                exact ⟨di, List.mem_cons_self _ _, it, hit, hrow⟩
              · rcases ih rs2 hrest r h2 with ⟨di', hdi, it, hit, hrow⟩
                exact ⟨di', List.mem_cons_of_mem _ hdi, it, hit, hrow⟩

/-- Every row of a successful `normalize_usage` is the `usageRow` image of
one of the payload's result records, stamped with the single timestamp
`iso_now t`. -/
theorem normalize_usage_sound (t : Nat) (payload : JValue) (rows : List Row)
    (h : normalize_usage t payload = Except.ok rows) :
    ∀ r ∈ rows, ∃ item, IsResultOf payload item ∧
      usageRow (iso_now t) item = Except.ok r := by
  intro r hr
  cases payload with
  | obj fs =>
      cases hit : pyIter (dictGetD fs "data" (JValue.arr [])) with
      | error e => simp [normalize_usage, hit] at h
      | ok dataItems =>
          simp only [normalize_usage, hit] at h
          rcases normUsageBuckets_sound (iso_now t) dataItems rows h r hr with
            ⟨di, hdi, it, hitm, hrow⟩
          refine ⟨it, ⟨di, ?_, hitm⟩, hrow⟩
          simpa [bucketsOf, hit] using hdi
  | null => simp [normalize_usage] at h
  | bool b => simp [normalize_usage] at h
  | int n => simp [normalize_usage] at h
  | str s => simp [normalize_usage] at h
  | arr xs => simp [normalize_usage] at h

/-- Rows of the inner cost loop all come from records of the iterated list. -/
theorem normCostResults_sound (ts period : String) :
    ∀ (items : List JValue) (rows : List Row),
      normCostResults ts period items = Except.ok rows →
      ∀ r ∈ rows, ∃ it ∈ items, costRow ts period it = Except.ok r := by
  intro items
  induction items with
  | nil =>
      intro rows h r hr
      simp only [normCostResults, Except.ok.injEq] at h
      subst h
      simp at hr
  | cons item rest ih =>
      intro rows h r hr
      cases hu : costRow ts period item with
      | error e => simp [normCostResults, hu] at h
      | ok r0 =>
          cases hrest : normCostResults ts period rest with
          | error e => simp [normCostResults, hu, hrest] at h
          | ok rs =>
              simp only [normCostResults, hu, hrest, Except.ok.injEq] at h
              subst h
              rcases List.mem_cons.mp hr with hr0 | hrs
              · exact ⟨item, List.mem_cons_self _ _, hr0 ▸ hu⟩
              · rcases ih rs hrest r hrs with ⟨it, hit, hrow⟩
                exact ⟨it, List.mem_cons_of_mem _ hit, hrow⟩

/-- Rows of one cost bucket all come from that bucket's result records and
carry the bucket's period string. -/
theorem costBucketRows_sound (ts : String) (di : JValue) (rows : List Row)
    (h : costBucketRows ts di = Except.ok rows) :
    ∃ fs, di = JValue.obj fs ∧
      ∀ r ∈ rows, ∃ it ∈ resultsOfBucket di,
        costRow ts (periodOf fs) it = Except.ok r := by
  cases di with
  | obj fs =>
      cases hit : pyIter (dictGetD fs "results" (JValue.arr [])) with
      | error e => simp [costBucketRows, hit] at h
      | ok results =>
          simp only [costBucketRows, hit] at h
          refine ⟨fs, rfl, fun r hr => ?_⟩
          have := normCostResults_sound ts (periodOf fs) results rows h r hr
          simpa [resultsOfBucket, hit] using this
  | null => simp [costBucketRows] at h
  | bool b => simp [costBucketRows] at h
  | int n => simp [costBucketRows] at h
  | str s => simp [costBucketRows] at h
  | arr xs => simp [costBucketRows] at h

/-- Rows of the outer cost loop all come from some bucket's result records,
stamped with that bucket's period string. -/
theorem normCostBuckets_sound (ts : String) :
    ∀ (dis : List JValue) (rows : List Row),
      normCostBuckets ts dis = Except.ok rows →
      ∀ r ∈ rows, ∃ di ∈ dis, ∃ fs, di = JValue.obj fs ∧
        ∃ it ∈ resultsOfBucket di, costRow ts (periodOf fs) it = Except.ok r := by
  intro dis
  induction dis with
  | nil =>
      intro rows h r hr
      simp only [normCostBuckets, Except.ok.injEq] at h
      subst h
      simp at hr
  | cons di rest ih =>
      intro rows h r hr
      cases hb : costBucketRows ts di with
      | error e => simp [normCostBuckets, hb] at h
      | ok rs1 =>
          cases hrest : normCostBuckets ts rest with
          | error e => simp [normCostBuckets, hb, hrest] at h
          | ok rs2 =>
              simp only [normCostBuckets, hb, hrest, Except.ok.injEq] at h
              subst h
              rcases List.mem_append.mp hr with h1 | h2
              · rcases costBucketRows_sound ts di rs1 hb with ⟨fs, hdi, hall⟩
                rcases hall r h1 with ⟨it, hit, hrow⟩
                exact ⟨di, List.mem_cons_self _ _, fs, hdi, it, hit, hrow⟩
              · rcases ih rs2 hrest r h2 with ⟨di', hdi, fs, hfs, it, hit, hrow⟩
                exact ⟨di', List.mem_cons_of_mem _ hdi, fs, hfs, it, hit, hrow⟩

/-- Every row of a successful `normalize_cost` is the `costRow` image of one
of the payload's result records, stamped with its bucket's period string and
the single timestamp `iso_now t`. -/
theorem normalize_cost_sound (t : Nat) (payload : JValue) (rows : List Row)
    (h : normalize_cost t payload = Except.ok rows) :
    ∀ r ∈ rows, ∃ di ∈ bucketsOf payload, ∃ fs, di = JValue.obj fs ∧
      ∃ it ∈ resultsOfBucket di,
        costRow (iso_now t) (periodOf fs) it = Except.ok r := by
  intro r hr
  cases payload with
  | obj fs =>
      cases hit : pyIter (dictGetD fs "data" (JValue.arr [])) with
      | error e => simp [normalize_cost, hit] at h
      | ok dataItems =>
          simp only [normalize_cost, hit] at h
          rcases normCostBuckets_sound (iso_now t) dataItems rows h r hr with
            ⟨di, hdi, fs', hfs, it, hitm, hrow⟩
          refine ⟨di, ?_, fs', hfs, it, hitm, hrow⟩
          simpa [bucketsOf, hit] using hdi
  | null => simp [normalize_cost] at h
  | bool b => simp [normalize_cost] at h
  | int n => simp [normalize_cost] at h
  | str s => simp [normalize_cost] at h
  | arr xs => simp [normalize_cost] at h

/-- Every row of the inner cost loop carries the period string in column 3
(0-based). -/
theorem normCostResults_period (ts period : String) (items : List JValue)
    (rows : List Row) (h : normCostResults ts period items = Except.ok rows) :
    ∀ r ∈ rows, r[3]? = some (JValue.str period) := by
  intro r hr
  rcases normCostResults_sound ts period items rows h r hr with ⟨it, _, hrow⟩
  rcases costRow_ok ts period it r hrow with ⟨fs, _, hshape⟩
  subst hshape
  rfl

/-- The rows a bucket contributes are among the rows of the whole outer cost
loop. -/
theorem normCostBuckets_complete (ts : String) :
    ∀ (dis : List JValue) (rows : List Row) (di : JValue) (brows : List Row),
      di ∈ dis →
      normCostBuckets ts dis = Except.ok rows →
      costBucketRows ts di = Except.ok brows →
      ∀ r ∈ brows, r ∈ rows := by
  intro dis
  induction dis with
  | nil =>
      intro rows di brows hmem
      simp at hmem
  | cons d rest ih =>
      intro rows di brows hmem h hb r hr
      cases hd : costBucketRows ts d with
      | error e => simp [normCostBuckets, hd] at h
      | ok rs1 =>
          cases hrest : normCostBuckets ts rest with
          | error e => simp [normCostBuckets, hd, hrest] at h
          | ok rs2 =>
              simp only [normCostBuckets, hd, hrest, Except.ok.injEq] at h
              subst h
              rcases List.mem_cons.mp hmem with hdi | hdi
              · subst hdi
                have : brows = rs1 := Except.ok.inj (hb.symm.trans hd)
                subst this
                exact List.mem_append_left _ hr
              · exact List.mem_append_right _ (ih rs2 di brows hdi hrest hb r hr)

/-- `dict.get` returns its default when the key is absent. -/
theorem dictGetD_of_hasKey_eq_false (fs : List (String × JValue)) (k : String)
    (d : JValue) (h : hasKey fs k = false) : dictGetD fs k d = d := by
  unfold hasKey at h
  unfold dictGetD
  cases hf : fs.find? (fun kv => kv.1 == k) with
  | none => rfl
  | some kv => rw [hf] at h; simp at h

/-! ## Claims -/

/-- Claim C1: for every usage result record in any payload, the row produced
by `normalize_usage` has an input-token column (index 3) equal to the sum of
the record's `uncached_input_tokens` and `cache_read_input_tokens` fields,
where a field missing from the record contributes 0 to the sum. -/
theorem usage_input_token_sum (t : Nat) (payload : JValue) (rows : List Row)
    (h : normalize_usage t payload = Except.ok rows) :
    ∀ r ∈ rows, ∃ fs, IsResultOf payload (JValue.obj fs) ∧
      usageRow (iso_now t) (JValue.obj fs) = Except.ok r ∧
      (hasKey fs "uncached_input_tokens" = false →
        dictGetD fs "uncached_input_tokens" (JValue.int 0) = JValue.int 0) ∧
      (hasKey fs "cache_read_input_tokens" = false →
        dictGetD fs "cache_read_input_tokens" (JValue.int 0) = JValue.int 0) ∧
      ∀ a b : Int,
        dictGetD fs "uncached_input_tokens" (JValue.int 0) = JValue.int a →
        dictGetD fs "cache_read_input_tokens" (JValue.int 0) = JValue.int b →
        r[3]? = some (JValue.int (a + b)) := by
  intro r hr
  rcases normalize_usage_sound t payload rows h r hr with ⟨item, hres, hrow⟩
  rcases usageRow_ok (iso_now t) item r hrow with ⟨fs, total, hitem, hadd, hshape⟩
  subst hitem
  refine ⟨fs, hres, hrow, dictGetD_of_hasKey_eq_false fs _ _,
    dictGetD_of_hasKey_eq_false fs _ _, ?_⟩
  intro a b ha hb
  rw [ha, hb] at hadd
  have htot : total = JValue.int (a + b) := by
    simpa [pyAdd] using hadd.symm
  subst htot
  subst hshape
  rfl

/-- A sample usage payload: one bucket, one result record with 100 uncached
and 50 cache-read input tokens. -/
def usageSamplePayload : JValue :=
  JValue.obj [("data", JValue.arr [JValue.obj [("results", JValue.arr [
    JValue.obj [("workspace_id", JValue.str "w1"), ("model", JValue.str "m1"),
                ("uncached_input_tokens", JValue.int 100),
                ("cache_read_input_tokens", JValue.int 50),
                ("output_tokens", JValue.int 7)]])]])]

/-- The single row `normalize_usage` emits for `usageSamplePayload`. -/
def usageSampleRow : Row :=
  ((normalize_usage 0 usageSamplePayload).toOption.getD []).headD []

/-- Witness for C1 at a concrete payload and its concrete emitted row. -/
theorem usage_input_token_sum_witness :
    ∃ fs, IsResultOf usageSamplePayload (JValue.obj fs) ∧
      usageRow (iso_now 0) (JValue.obj fs) = Except.ok usageSampleRow ∧
      (hasKey fs "uncached_input_tokens" = false →
        dictGetD fs "uncached_input_tokens" (JValue.int 0) = JValue.int 0) ∧
      (hasKey fs "cache_read_input_tokens" = false →
        dictGetD fs "cache_read_input_tokens" (JValue.int 0) = JValue.int 0) ∧
      ∀ a b : Int,
        dictGetD fs "uncached_input_tokens" (JValue.int 0) = JValue.int a →
        dictGetD fs "cache_read_input_tokens" (JValue.int 0) = JValue.int b →
        usageSampleRow[3]? = some (JValue.int (a + b)) :=
  usage_input_token_sum 0 usageSamplePayload _ rfl usageSampleRow
    (List.mem_singleton.mpr rfl)

/-- Claim C2: every row produced by `normalize_usage` or `normalize_cost`,
for any input payload and whatever optional fields are present, has exactly 7
columns, and its last column is the verbatim JSON serialization of the
source result record. -/
theorem rows_width7_and_raw_json (t : Nat) (payload : JValue) :
    (∀ rows, normalize_usage t payload = Except.ok rows →
       ∀ r ∈ rows, r.length = 7 ∧
         ∃ item, IsResultOf payload item ∧
           r.getLast? = some (JValue.str (dumps item))) ∧
    (∀ rows, normalize_cost t payload = Except.ok rows →
       ∀ r ∈ rows, r.length = 7 ∧
         ∃ item, IsResultOf payload item ∧
           r.getLast? = some (JValue.str (dumps item))) := by
  constructor
  · intro rows h r hr
    rcases normalize_usage_sound t payload rows h r hr with ⟨item, hres, hrow⟩
    rcases usageRow_ok (iso_now t) item r hrow with ⟨fs, total, hitem, _, hshape⟩
    subst hshape
    exact ⟨rfl, item, hres, rfl⟩
  · intro rows h r hr
    rcases normalize_cost_sound t payload rows h r hr with
      ⟨di, hdi, fs, hfs, item, hitm, hrow⟩
    rcases costRow_ok (iso_now t) (periodOf fs) item r hrow with ⟨fs', _, hshape⟩
    subst hshape
    exact ⟨rfl, item, ⟨di, hdi, hitm⟩, rfl⟩

/-- A sample cost payload: one bucket with a date range and one result
record. -/
def costSamplePayload : JValue :=
  JValue.obj [("data", JValue.arr [JValue.obj [
    ("starting_at", JValue.str "2024-01-01"),
    ("ending_at", JValue.str "2024-01-02"),
    ("results", JValue.arr [
      JValue.obj [("workspace_id", JValue.str "w1"), ("model", JValue.str "m1"),
                  ("amount", JValue.int 3),
                  ("description", JValue.str "claude usage")]])]])]

/-- Witness for C2 at concrete usage and cost payloads. -/
theorem rows_width7_and_raw_json_witness :
    (∀ r ∈ (normalize_usage 0 usageSamplePayload).toOption.getD [],
       r.length = 7 ∧ ∃ item, IsResultOf usageSamplePayload item ∧
         r.getLast? = some (JValue.str (dumps item))) ∧
    (∀ r ∈ (normalize_cost 0 costSamplePayload).toOption.getD [],
       r.length = 7 ∧ ∃ item, IsResultOf costSamplePayload item ∧
         r.getLast? = some (JValue.str (dumps item))) :=
  ⟨(rows_width7_and_raw_json 0 usageSamplePayload).1 _ rfl,
   (rows_width7_and_raw_json 0 costSamplePayload).2 _ rfl⟩

/-- Claim C3: for any cost bucket whose `starting_at` is `"2024-01-01"` and
whose `ending_at` is `"2024-01-02"`, every row `normalize_cost` emits for
that bucket has the literal string `"2024-01-01 to 2024-01-02"` in its period
column (index 3), and those rows are among the output of `normalize_cost` on
any payload containing the bucket. -/
theorem cost_bucket_period (t : Nat) (fs : List (String × JValue)) (brows : List Row)
    (hs : dictGetD fs "starting_at" (JValue.str "") = JValue.str "2024-01-01")
    (he : dictGetD fs "ending_at" (JValue.str "") = JValue.str "2024-01-02")
    (hb : costBucketRows (iso_now t) (JValue.obj fs) = Except.ok brows) :
    (∀ r ∈ brows, r[3]? = some (JValue.str "2024-01-01 to 2024-01-02")) ∧
    ∀ payload rows, JValue.obj fs ∈ bucketsOf payload →
      normalize_cost t payload = Except.ok rows →
      ∀ r ∈ brows, r ∈ rows := by
  have hperiod : periodOf fs = "2024-01-01 to 2024-01-02" := by
    unfold periodOf
    rw [hs, he]
    rfl
  constructor
  · intro r hr
    cases hit : pyIter (dictGetD fs "results" (JValue.arr [])) with
    | error e => simp [costBucketRows, hit] at hb
    | ok results =>
        simp only [costBucketRows, hit] at hb
        have := normCostResults_period (iso_now t) (periodOf fs) results brows hb r hr
        rwa [hperiod] at this
  · intro payload rows hmem h r hr
    cases payload with
    | obj pfs =>
        cases hit : pyIter (dictGetD pfs "data" (JValue.arr [])) with
        | error e => simp [normalize_cost, hit] at h
        | ok dataItems =>
            simp only [normalize_cost, hit] at h
            have hmem' : JValue.obj fs ∈ dataItems := by
              simpa [bucketsOf, hit] using hmem
            exact normCostBuckets_complete (iso_now t) dataItems rows
              (JValue.obj fs) brows hmem' h hb r hr
    | null => simp [bucketsOf] at hmem
    | bool b => simp [bucketsOf] at hmem
    | int n => simp [bucketsOf] at hmem
    | str s => simp [bucketsOf] at hmem
    | arr xs => simp [bucketsOf] at hmem

/-- The single bucket of `costSamplePayload`, as a field list. -/
def costSampleBucketFields : List (String × JValue) :=
  [("starting_at", JValue.str "2024-01-01"),
   ("ending_at", JValue.str "2024-01-02"),
   ("results", JValue.arr [
     JValue.obj [("workspace_id", JValue.str "w1"), ("model", JValue.str "m1"),
                 ("amount", JValue.int 3),
                 ("description", JValue.str "claude usage")]])]

/-- Witness for C3 at the concrete sample bucket and payload. -/
theorem cost_bucket_period_witness :
    (∀ r ∈ (costBucketRows (iso_now 0) (JValue.obj costSampleBucketFields)).toOption.getD [],
       r[3]? = some (JValue.str "2024-01-01 to 2024-01-02")) ∧
    ∀ payload rows, JValue.obj costSampleBucketFields ∈ bucketsOf payload →
      normalize_cost 0 payload = Except.ok rows →
      ∀ r ∈ (costBucketRows (iso_now 0) (JValue.obj costSampleBucketFields)).toOption.getD [],
        r ∈ rows :=
  cost_bucket_period 0 costSampleBucketFields _ rfl rfl rfl

/-- Claim C4: an empty `data` array makes both normalizers return an empty
row sequence, and `append_rows` on an empty sequence performs no write and
does not error (it only logs). -/
theorem empty_data_empty_append (t : Nat) (fs : List (String × JValue))
    (dryRun : Bool) (name : String)
    (hdata : dictGetD fs "data" (JValue.arr []) = JValue.arr []) :
    normalize_usage t (JValue.obj fs) = Except.ok [] ∧
    normalize_cost t (JValue.obj fs) = Except.ok [] ∧
    append_rows dryRun [] name = [SheetOp.logNoRows name] ∧
    writtenRows (append_rows dryRun [] name) = [] := by
  refine ⟨?_, ?_, ?_, ?_⟩
  · simp [normalize_usage, hdata, pyIter, normUsageBuckets]
  · simp [normalize_cost, hdata, pyIter, normCostBuckets]
  · simp [append_rows]
  · simp [append_rows, writtenRows]

/-- Witness for C4 at a concrete empty payload. -/
theorem empty_data_empty_append_witness :
    normalize_usage 0 (JValue.obj [("data", JValue.arr [])]) = Except.ok [] ∧
    normalize_cost 0 (JValue.obj [("data", JValue.arr [])]) = Except.ok [] ∧
    append_rows true [] "usage" = [SheetOp.logNoRows "usage"] ∧
    writtenRows (append_rows true [] "usage") = [] :=
  empty_data_empty_append 0 [("data", JValue.arr [])] true "usage" rfl

/-- Sample-row log operations contain no write. -/
theorem writtenRows_logSamples (l : List (Nat × Row)) :
    writtenRows (l.map (fun p => SheetOp.logSampleRow (p.1 + 1) p.2)) = [] := by
  induction l with
  | nil => rfl
  | cons a l ih => simp [writtenRows, List.filterMap_cons]

/-- Sample-row log operations log exactly the rows they were built from. -/
theorem sampledRows_logSamples (l : List (Nat × Row)) :
    sampledRows (l.map (fun p => SheetOp.logSampleRow (p.1 + 1) p.2)) =
      l.map Prod.snd := by
  induction l with
  | nil => rfl
  | cons a l ih => simpa [sampledRows, List.filterMap_cons] using ih

/-- Sample-row log operations contain no remainder-count line. -/
theorem remainderCounts_logSamples (l : List (Nat × Row)) :
    remainderCounts (l.map (fun p => SheetOp.logSampleRow (p.1 + 1) p.2)) = [] := by
  induction l with
  | nil => rfl
  | cons a l ih => simp [remainderCounts, List.filterMap_cons]

/-- Claim C5: in dry-run mode, `append_rows` on a non-empty row list issues
no write, logs exactly the first 3 rows as samples, and logs the count of
the remaining rows exactly when more than 3 exist; with 5 rows that is 3
samples and a remainder count of 2. -/
theorem dry_run_preview (rows : List Row) (name : String) (hne : rows ≠ []) :
    writtenRows (append_rows true rows name) = [] ∧
    sampledRows (append_rows true rows name) = rows.take 3 ∧
    remainderCounts (append_rows true rows name) =
      (if 3 < rows.length then [rows.length - 3] else []) := by
  have hni : rows.isEmpty = false := by
    cases rows with
    | nil => exact absurd rfl hne
    | cons a l => rfl
  unfold append_rows
  rw [hni]
  simp only [Bool.false_eq_true, if_false, if_true]
  refine ⟨?_, ?_, ?_⟩
  · show writtenRows (SheetOp.logDryRunHeader rows.length name ::
      ((rows.take 3).enum.map (fun p => SheetOp.logSampleRow (p.1 + 1) p.2) ++ _)) = _
    simp only [writtenRows, List.filterMap_cons, List.filterMap_append]
    have h1 := writtenRows_logSamples (rows.take 3).enum
    unfold writtenRows at h1
    rw [h1]
    split <;> rfl
  · show sampledRows (SheetOp.logDryRunHeader rows.length name ::
      ((rows.take 3).enum.map (fun p => SheetOp.logSampleRow (p.1 + 1) p.2) ++ _)) = _
    simp only [sampledRows, List.filterMap_cons, List.filterMap_append]
    have h1 := sampledRows_logSamples (rows.take 3).enum
    unfold sampledRows at h1
    rw [h1]
    have h2 : (rows.take 3).enum.map Prod.snd = rows.take 3 :=
      List.enumFrom_map_snd 0 (rows.take 3)
    rw [h2]
    split <;> simp
  · show remainderCounts (SheetOp.logDryRunHeader rows.length name ::
      ((rows.take 3).enum.map (fun p => SheetOp.logSampleRow (p.1 + 1) p.2) ++ _)) = _
    simp only [remainderCounts, List.filterMap_cons, List.filterMap_append]
    have h1 := remainderCounts_logSamples (rows.take 3).enum
    unfold remainderCounts at h1
    rw [h1]
    split <;> rfl

/-- Five distinct sample rows. -/
def fiveRows : List Row :=
  [[JValue.int 1], [JValue.int 2], [JValue.int 3], [JValue.int 4], [JValue.int 5]]

/-- Witness for C5: five rows in dry-run mode log exactly the first three as
samples plus a remainder count of 2, with no write. -/
theorem dry_run_preview_witness :
    writtenRows (append_rows true fiveRows "usage") = [] ∧
    sampledRows (append_rows true fiveRows "usage") =
      [[JValue.int 1], [JValue.int 2], [JValue.int 3]] ∧
    remainderCounts (append_rows true fiveRows "usage") = [2] := by
  have h := dry_run_preview fiveRows "usage" (by simp [fiveRows])
  refine ⟨h.1, ?_, ?_⟩
  · rw [h.2.1]; rfl
  · rw [h.2.2]; rfl

/-- Claim C6: with `LOOKBACK_HOURS = 48` and a fixed current UTC time `t`,
`get_date_range` returns `starting_at` equal to the calendar date of the
instant 48 hours before `t` and `ending_at` equal to the calendar date of
`t`; the rendering depends only on the day, never on the time of day.
The hypothesis keeps the model inside Nat time (the instant 48 hours
earlier exists at or after the epoch). -/
theorem get_date_range_48 (t : Nat) (h : 48 * 3600 ≤ t) :
    (get_date_range 48 t).starting_at = strftimeDate (t - 48 * 3600) ∧
    (get_date_range 48 t).ending_at = strftimeDate t ∧
    (∀ u v : Nat, u / 86400 = v / 86400 → strftimeDate u = strftimeDate v) ∧
    (t - 48 * 3600) + 48 * 3600 = t := by
  refine ⟨rfl, rfl, ?_, Nat.sub_add_cancel h⟩
  intro u v huv
  unfold strftimeDate
  rw [huv]

/-- Witness for C6 at a concrete instant (2025-10-12 01:00:00 UTC):
`starting_at` renders as 2025-10-10 and `ending_at` as 2025-10-12. -/
theorem get_date_range_48_witness :
    (get_date_range 48 (86400 * 20373 + 3600)).starting_at = "2025-10-10" ∧
    (get_date_range 48 (86400 * 20373 + 3600)).ending_at = "2025-10-12" := by
  have h := get_date_range_48 (86400 * 20373 + 3600) (by decide)
  exact ⟨h.1.trans (by rfl), h.2.1.trans (by rfl)⟩

/-- A run event is a fatal `sys.exit(1)`-style termination. -/
def isFatalExit : RunEvent → Bool
  | RunEvent.fatalExit _ => true
  | _ => false

/-- A run event is a network interaction (spreadsheet access or report
fetch). -/
def isNetworkCall : RunEvent → Bool
  | RunEvent.networkCall _ => true
  | _ => false

/-- Claim C7: if the credentials blob parses as JSON but the resulting object
has no `private_key` field, the run terminates fatally (nonzero exit) during
configuration, and its trace contains no network call (neither report fetch
nor spreadsheet access). -/
theorem missing_private_key_fatal (env : Env) (fs : List (String × JValue))
    (hjson : env.service_account_json = some (JValue.obj fs))
    (hmiss : hasKey fs "private_key" = false) :
    (∃ e ∈ runProgram env, isFatalExit e = true) ∧
    (∀ e ∈ runProgram env, isNetworkCall e = false) := by
  unfold runProgram configPhase checkServiceAccount
  rw [hjson]
  simp only [hmiss, Bool.not_false, if_true]
  split_ifs <;> simp_all [isFatalExit, isNetworkCall]

/-- A concrete environment whose credentials JSON is an object carrying only
`client_email`. -/
def envNoPrivateKey : Env :=
  { google_sheet_id := "sheet123",
    anthropic_admin_key := "sk-admin",
    anthropic_base_url := none,
    usage_endpoint := none,
    cost_endpoint := none,
    service_account_json :=
      some (JValue.obj [("client_email", JValue.str "svc@example.com")]) }

/-- Witness for C7 at a concrete environment. -/
theorem missing_private_key_fatal_witness :
    (∃ e ∈ runProgram envNoPrivateKey, isFatalExit e = true) ∧
    (∀ e ∈ runProgram envNoPrivateKey, isNetworkCall e = false) :=
  missing_private_key_fatal envNoPrivateKey
    [("client_email", JValue.str "svc@example.com")] rfl rfl

/-- Claim C8: `fetch_json` returns a parsed JSON value exactly when the HTTP
status is 200 and the body parses; every non-200 status, transport error, or
parse failure yields the fatal termination carrying the logged status or
response snippet, never a value (and the single GET is never retried). -/
theorem fetch_json_contract (res : HttpResult) :
    (∀ v, fetch_json res = Except.ok v ↔
      ∃ text, res = HttpResult.response 200 text (some v)) ∧
    (∀ statusCode text parsed, statusCode ≠ 200 →
      fetch_json (HttpResult.response statusCode text parsed) =
        Except.error ["ERROR: API returned status " ++ toString statusCode,
                      "Response: " ++ snippet500 text]) ∧
    (∀ msg, fetch_json (HttpResult.transportError msg) =
      Except.error ["ERROR: Failed to fetch: " ++ msg]) ∧
    (∀ text, fetch_json (HttpResult.response 200 text none) =
      Except.error ["ERROR: Failed to parse JSON response",
                    "Response text: " ++ snippet500 text]) := by
  refine ⟨?_, ?_, ?_, ?_⟩
  · intro v
    constructor
    · intro h
      cases res with
      | transportError msg => simp [fetch_json] at h
      | response statusCode text parsed =>
          by_cases hs : statusCode = 200
          · subst hs
            cases parsed with
            | none => simp [fetch_json] at h
            | some w =>
                simp [fetch_json] at h
                exact ⟨text, by rw [h]⟩
          · simp [fetch_json, hs] at h
    · rintro ⟨text, rfl⟩
      simp [fetch_json]
  · intro statusCode text parsed hs
    cases parsed with
    | none => simp [fetch_json, hs]
    | some w => simp [fetch_json, hs]
  · intro msg
    rfl
  · intro text
    rfl

/-- Witness for C8 at concrete outcomes: a 200 response with a parsed body
succeeds, and a 404 terminates with the logged status and snippet. -/
theorem fetch_json_contract_witness :
    (fetch_json (HttpResult.response 200 "[]" (some (JValue.arr []))) =
        Except.ok (JValue.arr []) ↔
      ∃ text, HttpResult.response 200 "[]" (some (JValue.arr [])) =
        HttpResult.response 200 text (some (JValue.arr []))) ∧
    fetch_json (HttpResult.response 404 "not found" none) =
      Except.error ["ERROR: API returned status 404",
                    "Response: not found"] := by
  constructor
  · exact (fetch_json_contract (HttpResult.response 200 "[]" (some (JValue.arr [])))).1
      (JValue.arr [])
  · have h := (fetch_json_contract (HttpResult.response 404 "not found" none)).2.1
      404 "not found" none (by decide)
    rw [h]
    rfl

/-- A cost result record whose `description` field is present but empty,
with a `cost_type` present. -/
def emptyDescFields : List (String × JValue) :=
  [("workspace_id", JValue.str "w1"),
   ("description", JValue.str ""),
   ("cost_type", JValue.str "subscription")]

/-- A cost payload containing one bucket with the record above. -/
def emptyDescPayload : JValue :=
  JValue.obj [("data", JValue.arr [JValue.obj [
    ("starting_at", JValue.str "2024-01-01"),
    ("ending_at", JValue.str "2024-01-02"),
    ("results", JValue.arr [JValue.obj emptyDescFields])]])]

/-- Counterexample to C9 as stated: for a record whose `description` field is
present and equal to `""`, the description column (index 5) of the emitted
row is the `cost_type` value `"subscription"`, not the record's `description`
field — the code falls back whenever `description` is falsy, not only when it
is absent. -/
theorem cost_description_claim_false :
    (normalize_cost 0 emptyDescPayload).toOption.map
        (List.map (fun r => r[5]?)) =
      some [some (JValue.str "subscription")] ∧
    hasKey emptyDescFields "description" = true ∧
    dictGetD emptyDescFields "description" JValue.null = JValue.str "" ∧
    JValue.str "subscription" ≠ JValue.str "" := by
  refine ⟨rfl, rfl, rfl, ?_⟩
  intro hcontra
  injection hcontra with h2
  exact absurd h2 (by decide)

/-- Claim C9 (amended): the description column (index 5) of every
`normalize_cost` row equals the record's `description` field when that field
is present and truthy; otherwise the record's `cost_type` field when that is
present and truthy; otherwise the empty string (absent fields read as null,
which is falsy). -/
theorem cost_description_fallback (t : Nat) (payload : JValue) (rows : List Row)
    (h : normalize_cost t payload = Except.ok rows) :
    ∀ r ∈ rows, ∃ fs, IsResultOf payload (JValue.obj fs) ∧
      r[5]? = some
        (if truthy (dictGetD fs "description" JValue.null) = true then
           dictGetD fs "description" JValue.null
         else if truthy (dictGetD fs "cost_type" JValue.null) = true then
           dictGetD fs "cost_type" JValue.null
         else JValue.str "") := by
  intro r hr
  rcases normalize_cost_sound t payload rows h r hr with
    ⟨di, hdi, fs', hfs, it, hitm, hrow⟩
  rcases costRow_ok (iso_now t) (periodOf fs') it r hrow with ⟨fs, hit, hshape⟩
  subst hit
  refine ⟨fs, ⟨di, hdi, hitm⟩, ?_⟩
  subst hshape
  simp only [pyOr]
  split_ifs <;> rfl

/-- The single row `normalize_cost` emits for `emptyDescPayload`. -/
def emptyDescRow : Row :=
  ((normalize_cost 0 emptyDescPayload).toOption.getD []).headD []

/-- Witness for the amended C9 at a concrete payload and its concrete
emitted row. -/
theorem cost_description_fallback_witness :
    ∃ fs, IsResultOf emptyDescPayload (JValue.obj fs) ∧
      emptyDescRow[5]? = some
        (if truthy (dictGetD fs "description" JValue.null) = true then
           dictGetD fs "description" JValue.null
         else if truthy (dictGetD fs "cost_type" JValue.null) = true then
           dictGetD fs "cost_type" JValue.null
         else JValue.str "") :=
  cost_description_fallback 0 emptyDescPayload _ rfl emptyDescRow
    (List.mem_singleton.mpr rfl)

/-- Claim C10: within a single call of either normalizer, every emitted row
carries the identical timestamp string `iso_now t` in its first column (the
timestamp is computed once per call), and that string is the ISO-8601
rendering at seconds precision with a trailing `Z`. -/
theorem timestamp_once_per_call (t : Nat) (payload : JValue) :
    (∀ rows, normalize_usage t payload = Except.ok rows →
       ∀ r ∈ rows, r.head? = some (JValue.str (iso_now t))) ∧
    (∀ rows, normalize_cost t payload = Except.ok rows →
       ∀ r ∈ rows, r.head? = some (JValue.str (iso_now t))) ∧
    iso_now t =
      strftimeDate t ++ "T" ++ pad2 (t % 86400 / 3600) ++ ":" ++
        pad2 (t % 3600 / 60) ++ ":" ++ pad2 (t % 60) ++ "Z" ∧
    (∃ s, iso_now t = s ++ "Z") := by
  refine ⟨?_, ?_, rfl, ?_⟩
  · intro rows h r hr
    rcases normalize_usage_sound t payload rows h r hr with ⟨item, _, hrow⟩
    rcases usageRow_ok (iso_now t) item r hrow with ⟨fs, total, _, _, hshape⟩
    subst hshape
    rfl
  · intro rows h r hr
    rcases normalize_cost_sound t payload rows h r hr with
      ⟨di, _, fs', _, it, _, hrow⟩
    rcases costRow_ok (iso_now t) (periodOf fs') it r hrow with ⟨fs, _, hshape⟩
    subst hshape
    rfl
  · exact ⟨strftimeDate t ++ "T" ++ pad2 (t % 86400 / 3600) ++ ":" ++
      pad2 (t % 3600 / 60) ++ ":" ++ pad2 (t % 60), by simp [iso_now]⟩

/-- Witness for C10 at concrete payloads: both hypotheses discharged at the
sample usage and cost payloads. -/
theorem timestamp_once_per_call_witness :
    (∀ r ∈ (normalize_usage 0 usageSamplePayload).toOption.getD [],
       r.head? = some (JValue.str (iso_now 0))) ∧
    (∀ r ∈ (normalize_cost 0 costSamplePayload).toOption.getD [],
       r.head? = some (JValue.str (iso_now 0))) :=
  ⟨(timestamp_once_per_call 0 usageSamplePayload).1 _ rfl,
   (timestamp_once_per_call 0 costSamplePayload).2.1 _ rfl⟩
